import Mathlib

/-
Verification development for the paytag-backend payment ingestion and
autoswap settlement pipeline.  The definitions below are a shallow
embedding of the TypeScript sources: the webhook service
(`WebhookService.processWebhook`, `handleInboundTransaction`,
`generateReceipt`, `checkAndEnqueueAutoswap`), the Circle service
(`verifyWebhookSignature`, `fetchPublicKey`), the Walrus blob store
(`WalrusService.storeBlob`) and the drizzle schema
(`payments`, `receipts`, `swap_jobs`, `users`, `paytags`).
Database tables are lists of rows; asynchronous calls are oracles passed
as explicit arguments; JavaScript exceptions are `Except`/`Option` values.
-/

namespace PaytagVerif

/-- The closed asset enum from the `payments.asset` column. -/
inductive Asset where
  | USDC
  | EURC
  | ETH
  | UNKNOWN
deriving DecidableEq, Repr

/-- `payments.status` column enum. -/
inductive PaymentStatus where
  | completed
  | confirmed
  | detected
  | processed
  | failed
deriving DecidableEq, Repr

/-- `payments.swap_status` column enum. -/
inductive SwapStatus where
  | not_applicable
  | queued
  | swapping
  | swapped
  | swap_failed
deriving DecidableEq, Repr

/-- `swap_jobs.status` column enum. -/
inductive JobStatus where
  | queued
  | locked
  | completed
  | failed
deriving DecidableEq, Repr

/-- `receipts.status` column enum. -/
inductive ReceiptStatus where
  | confirmed
  | pending
  | failed
deriving DecidableEq, Repr

/-- JavaScript truthiness of a possibly-absent string: `undefined`/`null`
and the empty string are falsy, every other string is truthy. -/
def truthy : Option String → Bool
  | none => false
  | some s => !(s == "")

/-- JavaScript `v || d` on a possibly-absent string. -/
def jsOr (v : Option String) (d : String) : String :=
  match v with
  | none => d
  | some s => if s == "" then d else s

/-- Row of the `paytags` table (fields this pipeline reads). -/
structure Paytag where
  id : String
  userId : String
  handle : String
  circleWalletAddress : String
deriving DecidableEq, Repr

/-- Row of the `users` table (autoswap policy fields this pipeline reads). -/
structure UserRow where
  id : String
  autoswapEnabled : Bool
  autoswapSlippageBps : Int
  autoswapMaxGasGwei : Option Int
  autoswapMinAmountWei : Option String
deriving DecidableEq, Repr

/-- Row of the `payments` table. -/
structure Payment where
  id : String
  paytagId : String
  chain : String
  asset : Asset
  amount : String
  fromAddress : Option String
  toAddress : String
  txHash : String
  circleTransferId : Option String
  rawEvent : String
  status : PaymentStatus
  swapStatus : SwapStatus
deriving DecidableEq, Repr

/-- Row of the `receipts` table (the DB-generated primary key `id` is
omitted; it is never read by this pipeline). -/
structure Receipt where
  paymentId : String
  receiptPublicId : String
  paytagHandle : String
  paytagName : String
  receiverAddress : String
  chain : String
  assetIn : Asset
  amountIn : String
  amountUSDC : String
  txHash : String
  blockTimestamp : Option String
  status : ReceiptStatus
  circleTransferId : Option String
  explorerUrl : Option String
  walrusBlobId : Option String
  receiptHash : Option String
deriving DecidableEq, Repr

/-- Row of the `swap_jobs` table. -/
structure SwapJob where
  id : String
  paymentId : String
  status : JobStatus
  attempts : Nat
  maxAttempts : Nat
  nextRunAt : Nat
  lockedAt : Option Nat
  lockedBy : Option String
  completedAt : Option Nat
  error : Option String
deriving DecidableEq, Repr

/-- The persisted state the pipeline touches: one list per table. -/
structure DB where
  paytags : List Paytag
  users : List UserRow
  payments : List Payment
  receipts : List Receipt
  swapJobs : List SwapJob
deriving DecidableEq, Repr

/-- The normalized webhook event produced by `CircleService.parseWebhookEvent`
(fields consumed by `handleInboundTransaction`). -/
structure WebhookEvent where
  destinationAddress : Option String
  transactionId : Option String
  amount : Option String
  tokenId : Option String
  blockchain : Option String
  txHash : Option String
  timestamp : Option String
deriving DecidableEq, Repr

/-- `WebhookService.getSupportedBlockchains`: the chain allow-list,
environment-dependent. -/
def getSupportedBlockchains (isProduction : Bool) : List String :=
  if isProduction then ["ETH", "BASE", "ETH-MAINNET", "BASE-MAINNET"]
  else ["ETH", "BASE", "ETH-SEPOLIA", "BASE-SEPOLIA"]

/-- `WebhookService.isSupportedBlockchain`. -/
def isSupportedBlockchain (isProduction : Bool) (blockchain : Option String) : Bool :=
  if !(truthy blockchain) then false
  else (getSupportedBlockchains isProduction).contains (jsOr blockchain "")

/-- The static Circle token-id-to-asset table of the current
`WebhookService.normalizeTokenId` (the revision with autoswap support). -/
def TOKEN_ID_MAP : List (String × Asset) :=
  [ ("bdf128b4-827b-5267-8f9e-243694989b5f", Asset.USDC),
    ("5797fbd6-3795-519d-84ca-ec4c5f80c3b1", Asset.USDC),
    ("979869da-9115-5f7d-917d-12d434e56ae7", Asset.ETH),
    ("c22b378a-843a-59b6-aaf5-bcba622729e6", Asset.EURC) ]

/-- Current `WebhookService.normalizeTokenId`: absent/falsy ids and ids not
in the static table normalize to UNKNOWN. -/
def normalizeTokenId (tokenId : Option String) : Asset :=
  if !(truthy tokenId) then Asset.UNKNOWN
  else
    match TOKEN_ID_MAP.lookup (jsOr tokenId "") with
    | none => Asset.UNKNOWN
    | some a => a

/-- Earlier revision of `WebhookService.normalizeTokenId`
(src/src/services/webhook.service.ts): every token id, present or absent,
is normalized to USDC ("For now, assume USDC"). -/
def normalizeTokenIdV1 (tokenId : Option String) : Asset :=
  if !(truthy tokenId) then Asset.USDC
  else Asset.USDC

/-- `WebhookService.getExplorerUrl`: explorer base by chain, BASE default. -/
def getExplorerUrl (txHash : String) (chain : String) : String :=
  let base :=
    if chain == "BASE" then "https://basescan.org"
    else if chain == "BASE-SEPOLIA" then "https://sepolia.basescan.org"
    else if chain == "ETH" then "https://etherscan.io"
    else if chain == "ETH-SEPOLIA" then "https://sepolia.etherscan.io"
    else if chain == "ETHEREUM" then "https://etherscan.io"
    else if chain == "ETHEREUM_SEPOLIA" then "https://sepolia.etherscan.io"
    else "https://basescan.org"
  base ++ "/tx/" ++ txHash

/-- Numeric value of a digit string. -/
def digitsVal (cs : List Char) : Nat :=
  cs.foldl (fun acc c => acc * 10 + (c.toNat - 48)) 0

/-- All characters are decimal digits. -/
def allDigits (cs : List Char) : Bool :=
  cs.all Char.isDigit

/-- JavaScript `BigInt(string)` on the decimal strings this service stores:
surrounding whitespace is ignored, the empty string is 0, an optional sign
precedes decimal digits; anything else throws (modelled as `none`). -/
def parseBigIntJs (s : String) : Option Int :=
  let t := s.trim.toList
  if t = [] then some 0
  else if t.head? = some '-' then
    let ds := t.drop 1
    if ds ≠ [] ∧ allDigits ds then some (-(digitsVal ds : Int)) else none
  else if allDigits t then some ((digitsVal t : Int)) else none

/-- Split a character list at the first dot. -/
def splitOnDot (cs : List Char) : List Char × Option (List Char) :=
  match cs.span (fun c => !(c == '.')) with
  | (ip, []) => (ip, none)
  | (ip, _ :: fp) => (ip, some fp)

/-- viem `parseEther`: decimal string to wei (18 decimals).  Optional sign,
at most one dot, digit-only parts; fraction digits beyond the 18th round
half-up.  Strings outside this shape throw in viem (modelled as `none`). -/
def parseEtherViem (s : String) : Option Int :=
  let (neg, body) :=
    match s.toList with
    | c :: rest => if c = '-' then (true, rest) else (false, s.toList)
    | [] => (false, ([] : List Char))
  let (ip, fpOpt) := splitOnDot body
  match fpOpt with
  | none =>
      if allDigits ip then
        let mag : Nat := digitsVal ip * 10 ^ 18
        some (if neg then -(mag : Int) else (mag : Int))
      else none
  | some fp =>
      if allDigits ip && allDigits fp then
        let f18 := fp.take 18
        let carry : Nat :=
          match fp.drop 18 with
          | [] => 0
          | c :: _ => if c.toNat ≥ 53 then 1 else 0
        let mag : Nat := digitsVal ip * 10 ^ 18 + digitsVal f18 * 10 ^ (18 - f18.length) + carry
        some (if neg then -(mag : Int) else (mag : Int))
      else none

/-- Static configuration read from the environment: `NODE_ENV` and the
`isAutoswapSupported` allow-list imported from `lib/swap-config.js`
(the allow-list's own source is not under src/, so it is kept abstract
as a predicate on asset and chain). -/
structure Cfg where
  isProduction : Bool
  autoswapSupported : Asset → String → Bool

/-- The receipt JSON document built by `WebhookService.generateReceipt`
and mirrored to Walrus. -/
structure ReceiptDoc where
  receiptId : String
  paytagHandle : String
  paytagName : String
  receiverAddress : String
  chain : String
  assetIn : Asset
  amountIn : String
  amountUSDC : String
  txHash : String
  paymentId : String
  blockTimestamp : String
  status : ReceiptStatus
  explorerUrl : String
  circleTransferId : Option String
  createdAt : String
deriving DecidableEq, Repr

/-- Environment for one webhook-processing call: generated ids
(`createId`/`nanoid` draws), the clock, and the outcomes of the external
Walrus calls.  `hashDoc` stands for sha256-hex of `JSON.stringify` of the
receipt document; `uploadResult` is the Walrus HTTP upload outcome
(`.ok blobId` on success, `.error e` when the publisher is unreachable or
rejects the upload). -/
structure Gen where
  paymentId : String
  receiptPublicId : String
  jobId : String
  now : Nat
  nowIso : String
  publisherConfigured : Bool
  uploadResult : Except String String
  hashDoc : ReceiptDoc → String

/-- Result of `WalrusService.storeBlob`. -/
structure BlobStoreResult where
  blobId : String
  hash : String
deriving DecidableEq, Repr

/-- `hash.substring(0, 16)`. -/
def take16 (s : String) : String :=
  String.mk (s.toList.take 16)

/-- `WalrusService.storeBlob`: computes the sha256 hash of the serialized
document, then uploads.  When the publisher URL is not configured, or when
the upload throws or responds with an error, it returns a local reference
`local_<hash prefix>` together with the hash — it never throws on the
upload path. -/
def storeBlob (publisherConfigured : Bool) (uploadResult : Except String String)
    (docHash : String) : BlobStoreResult :=
  if !publisherConfigured then
    { blobId := "local_" ++ take16 docHash, hash := docHash }
  else
    match uploadResult with
    | .ok blobId => { blobId := blobId, hash := docHash }
    | .error _ => { blobId := "local_" ++ take16 docHash, hash := docHash }

/-- The receipt document `generateReceipt` builds for Walrus
(`receiptData` in the source). -/
def mkReceiptDoc (gen : Gen) (payment : Payment) (paytag : Paytag)
    (event : WebhookEvent) : ReceiptDoc :=
  { receiptId := gen.receiptPublicId
    paytagHandle := paytag.handle
    paytagName := paytag.handle ++ ".paytag.eth"
    receiverAddress := paytag.circleWalletAddress
    chain := payment.chain
    assetIn := payment.asset
    amountIn := payment.amount
    amountUSDC := payment.amount
    txHash := payment.txHash
    paymentId := payment.id
    blockTimestamp := jsOr event.timestamp gen.nowIso
    status := ReceiptStatus.confirmed
    explorerUrl := getExplorerUrl payment.txHash payment.chain
    circleTransferId := payment.circleTransferId
    createdAt := gen.nowIso }

/-- `WebhookService.generateReceipt` (current revision): builds the receipt
document, mirrors it to Walrus best-effort via `storeBlob`, and inserts the
receipt row.  It returns the inserted row and the new state; it has no
error outcome (mirror failures are absorbed inside `storeBlob`). -/
def generateReceipt (gen : Gen) (db : DB) (payment : Payment) (paytag : Paytag)
    (event : WebhookEvent) : Receipt × DB :=
  let doc := mkReceiptDoc gen payment paytag event
  let blob := storeBlob gen.publisherConfigured gen.uploadResult (gen.hashDoc doc)
  let receipt : Receipt :=
    { paymentId := payment.id
      receiptPublicId := gen.receiptPublicId
      paytagHandle := paytag.handle
      paytagName := paytag.handle ++ ".paytag.base.eth"
      receiverAddress := paytag.circleWalletAddress
      chain := payment.chain
      assetIn := payment.asset
      amountIn := payment.amount
      amountUSDC := payment.amount
      txHash := payment.txHash
      blockTimestamp := if truthy event.timestamp then some (jsOr event.timestamp "") else none
      status := ReceiptStatus.confirmed
      circleTransferId := payment.circleTransferId
      explorerUrl := some (getExplorerUrl payment.txHash payment.chain)
      walrusBlobId := some blob.blobId
      receiptHash := some blob.hash }
  (receipt, { db with receipts := db.receipts ++ [receipt] })

/-- Outcome of `checkAndEnqueueAutoswap` (the source logs a distinct reason
at each early return; `errored` is the outer catch that swallows a thrown
error without writing). -/
inductive EnqueueOutcome where
  | enqueued
  | skippedUnsupported
  | skippedNoUser
  | skippedDisabled
  | skippedBelowMin
  | skippedAlreadyQueued
  | errored
deriving DecidableEq, Repr

/-- The swap job row inserted on successful enqueue. -/
def mkSwapJob (gen : Gen) (payment : Payment) : SwapJob :=
  { id := gen.jobId
    paymentId := payment.id
    status := JobStatus.queued
    attempts := 0
    maxAttempts := 3
    nextRunAt := gen.now
    lockedAt := none
    lockedBy := none
    completedAt := none
    error := none }

/-- Tail of `checkAndEnqueueAutoswap` after the eligibility checks: the
job-existence idempotency check, the `swap_jobs` insert and the
`payments.swap_status` update. -/
def enqueueSwapJob (gen : Gen) (db : DB) (payment : Payment) : EnqueueOutcome × DB :=
  if ∃ j ∈ db.swapJobs, j.paymentId = payment.id then (.skippedAlreadyQueued, db)
  else
    let db1 := { db with swapJobs := db.swapJobs ++ [mkSwapJob gen payment] }
    let db2 := { db1 with
      payments := db1.payments.map (fun p =>
        if p.id = payment.id then { p with swapStatus := SwapStatus.queued } else p) }
    (.enqueued, db2)

/-- `WebhookService.checkAndEnqueueAutoswap`: ordered eligibility checks
(asset/chain allow-list, user lookup via the paytag join, `autoswapEnabled`,
optional minimum amount in wei) followed by `enqueueSwapJob`.  A thrown
`BigInt`/`parseEther` error is swallowed by the outer catch (`errored`,
no write). -/
def checkAndEnqueueAutoswap (cfg : Cfg) (gen : Gen) (db : DB) (payment : Payment)
    (paytag : Paytag) : EnqueueOutcome × DB :=
  if !(cfg.autoswapSupported payment.asset payment.chain) then (.skippedUnsupported, db)
  else
    match (db.paytags.find? (fun p => p.id == paytag.id)).bind
        (fun p => db.users.find? (fun u => u.id == p.userId)) with
    | none => (.skippedNoUser, db)
    | some user =>
      if !user.autoswapEnabled then (.skippedDisabled, db)
      else if truthy user.autoswapMinAmountWei then
        match parseBigIntJs (jsOr user.autoswapMinAmountWei ""),
            parseEtherViem payment.amount with
        | some minAmount, some paymentWei =>
          if paymentWei < minAmount then (.skippedBelowMin, db)
          else enqueueSwapJob gen db payment
        | _, _ => (.errored, db)
      else enqueueSwapJob gen db payment

/-- The payment row `handleInboundTransaction` inserts on first sighting
(the values literal of the `payments` insert; `id` models the
`createId()` column default). -/
def mkInsertedPayment (gen : Gen) (event : WebhookEvent) (rawPayload : String)
    (paytag : Paytag) : Payment :=
  { id := gen.paymentId
    paytagId := paytag.id
    chain := jsOr event.blockchain "ETH-SEPOLIA"
    asset := normalizeTokenId event.tokenId
    amount := jsOr event.amount "0"
    fromAddress := none
    toAddress := jsOr event.destinationAddress ""
    txHash := jsOr event.txHash ""
    circleTransferId := some (jsOr event.transactionId "")
    rawEvent := rawPayload
    status := PaymentStatus.completed
    swapStatus := SwapStatus.not_applicable }

/-- Outcome of `handleInboundTransaction` (one constructor per early
return in the source). -/
inductive InboundOutcome where
  | missingFields
  | noAmount
  | unsupportedChain
  | noPaytag
  | alreadyRecorded
  | recordFailed
  | recorded (enq : EnqueueOutcome)
deriving DecidableEq, Repr

/-- `WebhookService.handleInboundTransaction` (current revision): field
validation, chain allow-list, paytag lookup, idempotency lookup by
`circleTransferId`, the `payments` insert (with `status: completed`),
best-effort `generateReceipt`, then `checkAndEnqueueAutoswap`.
The insert itself fails (caught and rethrown as `recordFailed`, no row
written) when `txHash` is absent — the column is NOT NULL — or collides
with the unique index on `payments.tx_hash`. -/
def handleInboundTransaction (cfg : Cfg) (gen : Gen) (db : DB)
    (event : WebhookEvent) (rawPayload : String) : InboundOutcome × DB :=
  if !(truthy event.destinationAddress && truthy event.transactionId) then
    (.missingFields, db)
  else if !(truthy event.amount) || (event.amount == some "0") then
    (.noAmount, db)
  else if !(isSupportedBlockchain cfg.isProduction event.blockchain) then
    (.unsupportedChain, db)
  else
    match db.paytags.find? (fun p => p.circleWalletAddress == jsOr event.destinationAddress "") with
    | none => (.noPaytag, db)
    | some paytag =>
      if ∃ p ∈ db.payments, p.circleTransferId = some (jsOr event.transactionId "") then
        (.alreadyRecorded, db)
      else
        if !(truthy event.txHash) || db.payments.any (fun p => p.txHash == jsOr event.txHash "") then
          (.recordFailed, db)
        else
          let payment := mkInsertedPayment gen event rawPayload paytag
          let db1 := { db with payments := db.payments ++ [payment] }
          let rdb := generateReceipt gen db1 payment paytag event
          let enq := checkAndEnqueueAutoswap cfg gen rdb.2 payment paytag
          (.recorded enq.1, enq.2)

/-- `CircleService.fetchPublicKey`: cache lookup first (process-lifetime
map, keyed by key id), then the key-distribution HTTP endpoint, whose
outcome is the `network` oracle; a failed fetch rethrows with a wrapped
message. -/
def fetchPublicKey (cache : List (String × String)) (keyId : String)
    (network : Except String String) : Except String String :=
  match cache.lookup keyId with
  | some k => .ok k
  | none =>
    match network with
    | .ok k => .ok k
    | .error e => .error ("Public key fetch failed: " ++ e)

/-- `CircleService.verifyWebhookSignature`: the whole body sits in a
try/catch, so a failed key fetch, a malformed DER/SPKI key
(`createPublicKey` throws, the `createKey` oracle), or a throwing
`crypto.verify` (the `cryptoVerify` oracle) all yield `false`; otherwise
the ECDSA result is returned.  The return type is `Bool`: the function
cannot throw. -/
def verifyWebhookSignature (cache : List (String × String))
    (network : Except String String)
    (createKey : String → Except String String)
    (cryptoVerify : String → String → String → Except String Bool)
    (payload signature keyId : String) : Bool :=
  match fetchPublicKey cache keyId network with
  | .error _ => false
  | .ok keyB64 =>
    match createKey keyB64 with
    | .error _ => false
    | .ok pk =>
      match cryptoVerify pk payload signature with
      | .error _ => false
      | .ok b => b

mutual

/-- A JSON value, restricted to the shapes needed to model
`JSON.parse`/`JSON.stringify` round trips: numbers, strings without
escapes, and objects. -/
inductive Json where
  | num (n : Nat)
  | str (s : String)
  | obj (ms : JsonMembers)

/-- Members of a JSON object. -/
inductive JsonMembers where
  | nil
  | cons (key : String) (val : Json) (rest : JsonMembers)

end

/-- The double-quote character. -/
def quoteChar : Char := Char.ofNat 34

/-- The opening-brace character. -/
def lbraceChar : Char := Char.ofNat 123

/-- The closing-brace character. -/
def rbraceChar : Char := Char.ofNat 125

/-- Skip JSON whitespace. -/
def skipWs (cs : List Char) : List Char :=
  cs.dropWhile (fun c => c == ' ' || c == '\n' || c == '\t' || c == '\r')

/-- Parse a quoted string literal (no escapes). -/
def parseStringLit (cs : List Char) : Option (String × List Char) :=
  match cs with
  | c :: rest =>
    if c = quoteChar then
      let p := rest.span (fun d => !(d == quoteChar))
      match p.2 with
      | d :: rest2 => if d = quoteChar then some (String.mk p.1, rest2) else none
      | [] => none
    else none
  | [] => none

mutual

/-- Fuel-bounded recursive-descent model of `JSON.parse` on the restricted
grammar (insignificant whitespace between tokens, as in JSON). -/
def parseJsonValue : Nat → List Char → Option (Json × List Char)
  | 0, _ => none
  | Nat.succ fuel, cs0 =>
    let cs := skipWs cs0
    match cs with
    | [] => none
    | c :: rest =>
      if c = quoteChar then
        match parseStringLit cs with
        | some r => some (Json.str r.1, r.2)
        | none => none
      else if c.isDigit then
        let p := cs.span Char.isDigit
        some (Json.num (digitsVal p.1), p.2)
      else if c = lbraceChar then
        parseJsonMembers fuel (skipWs rest)
      else none

/-- Parse the members of an object after the opening brace. -/
def parseJsonMembers : Nat → List Char → Option (Json × List Char)
  | 0, _ => none
  | Nat.succ fuel, cs =>
    match cs with
    | [] => none
    | c :: rest =>
      if c = rbraceChar then some (Json.obj JsonMembers.nil, rest)
      else
        match parseStringLit cs with
        | none => none
        | some kr =>
          match skipWs kr.2 with
          | c2 :: r2 =>
            if c2 = ':' then
              match parseJsonValue fuel (skipWs r2) with
              | none => none
              | some vr =>
                match skipWs vr.2 with
                | c3 :: r4 =>
                  if c3 = ',' then
                    match parseJsonMembers fuel (skipWs r4) with
                    | some mr =>
                      match mr.1 with
                      | Json.obj ms => some (Json.obj (JsonMembers.cons kr.1 vr.1 ms), mr.2)
                      | _ => none
                    | none => none
                  else if c3 = rbraceChar then
                    some (Json.obj (JsonMembers.cons kr.1 vr.1 JsonMembers.nil), r4)
                  else none
                | [] => none
            else none
          | [] => none

end

/-- `JSON.parse` on a whole request body. -/
def parseJson (s : String) : Option Json :=
  match parseJsonValue (s.length + 1) s.toList with
  | some r => if skipWs r.2 = [] then some r.1 else none
  | none => none

/-- A string literal as `JSON.stringify` renders it. -/
def stringifyStrLit (s : String) : String :=
  String.mk (quoteChar :: s.toList ++ [quoteChar])

mutual

/-- `JSON.stringify` (compact form, no spacing — as JavaScript emits it). -/
def jsonStringify : Json → String
  | .num n => toString n
  | .str s => stringifyStrLit s
  | .obj ms => String.singleton lbraceChar ++ stringifyMembers ms ++ String.singleton rbraceChar

/-- Stringify object members, comma-separated. -/
def stringifyMembers : JsonMembers → String
  | .nil => ""
  | .cons k v .nil => stringifyStrLit k ++ ":" ++ jsonStringify v
  | .cons k v (.cons k2 v2 rest) =>
      stringifyStrLit k ++ ":" ++ jsonStringify v ++ "," ++
        stringifyMembers (JsonMembers.cons k2 v2 rest)

end

/-- The byte string the earlier `WebhookService.processWebhook` revision
(src/src/services/webhook.service.ts) passes to
`verifyWebhookSignature`: `JSON.stringify(payload)`, a re-serialization of
the already-parsed request body; the raw wire bytes are not consulted. -/
def signatureInputV1 (payload : Json) (_rawBody : String) : String :=
  jsonStringify payload

/-- The byte string the current `WebhookService.processWebhook` revision
passes to `verifyWebhookSignature`: the `rawBody` string captured by the
route's `preParsing` hook before Fastify parses the body. -/
def signatureInputV2 (_payload : Json) (rawBody : String) : String :=
  rawBody

/-- Modelled from the spec: the WHERE-clause precondition of the claim
update — the row exists, is queued, and is due. -/
@[reducible] def claimable (now : Nat) (jobs : List SwapJob) (jobId : String) : Prop :=
  ∃ j ∈ jobs, j.id = jobId ∧ j.status = JobStatus.queued ∧ j.nextRunAt ≤ now

/-- Modelled from the spec: the SET-clause of the claim update applied to
the matching row. -/
def lockAll (now : Nat) (worker : String) (jobs : List SwapJob)
    (jobId : String) : List SwapJob :=
  jobs.map (fun j =>
    if j.id = jobId then
      { j with status := JobStatus.locked, lockedBy := some worker, lockedAt := some now }
    else j)

/-- Modelled from the spec: the AutoSwap worker pool's claim operation is
not under src/ (only the `swap_jobs` schema is); §4.6/§5 of the spec
require it to be a single atomic conditional update on the job row —
`UPDATE swap_jobs SET status=locked, locked_by=worker, locked_at=now WHERE
id=jobId AND status=queued AND next_run_at <= now` — never separate
read-then-write steps. -/
def claimJob (now : Nat) (worker : String) (jobs : List SwapJob)
    (jobId : String) : Bool × List SwapJob :=
  if claimable now jobs jobId then (true, lockAll now worker jobs jobId)
  else (false, jobs)

/-- Modelled from the spec: an interleaving of claim attempts by several
workers is a sequence of atomic `claimJob` steps against the shared job
table.  Returns the log of successful claims (worker, job id) and the
final table. -/
def runClaims (now : Nat) (attempts : List (String × String))
    (jobs : List SwapJob) : List (String × String) × List SwapJob :=
  match attempts with
  | [] => ([], jobs)
  | (w, t) :: rest =>
    let step := claimJob now w jobs t
    let r := runClaims now rest step.2
    (if step.1 then (w, t) :: r.1 else r.1, r.2)

/-- Spec-side helper: whether the resolved policy has autoswap enabled
(checked only after policy resolution has succeeded). -/
def policyEnabled : Option UserRow → Bool
  | none => true
  | some u => u.autoswapEnabled

/-- Spec-side helper for eligibility check (3): `none` when the threshold
is set but the threshold or the payment amount fails to parse (an error,
not a skip); `some b` with `b` true exactly when the payment amount in wei
is below the configured minimum. -/
def minCheckState (policy : Option UserRow) (payment : Payment) : Option Bool :=
  match policy with
  | none => some false
  | some u =>
    if truthy u.autoswapMinAmountWei then
      match parseBigIntJs (jsOr u.autoswapMinAmountWei ""),
          parseEtherViem payment.amount with
      | some m, some w => some (w < m)
      | _, _ => none
    else some false

/-- Spec-side model of §4.5's eligibility predicate, transcribed from the
spec's words: the ordered list of checks with their skip reasons, of which
the first failing one is reported.  `none` means every check passed. -/
def specEligibilityFailure (cfg : Cfg) (db : DB) (payment : Payment)
    (paytag : Paytag) : Option EnqueueOutcome :=
  let policy := (db.paytags.find? (fun p => p.id == paytag.id)).bind
    (fun p => db.users.find? (fun u => u.id == p.userId))
  let checks : List (Bool × EnqueueOutcome) :=
    [ (!(cfg.autoswapSupported payment.asset payment.chain), .skippedUnsupported),
      (policy.isNone, .skippedNoUser),
      (!(policyEnabled policy), .skippedDisabled),
      ((minCheckState policy payment).isNone, .errored),
      (minCheckState policy payment == some true, .skippedBelowMin),
      (decide (∃ j ∈ db.swapJobs, j.paymentId = payment.id), .skippedAlreadyQueued) ]
  (checks.find? (fun c => c.1)).map (fun c => c.2)

/-- Spec-side model of the state after a successful enqueue: exactly one
new SwapJob row with status=queued, attempts=0, maxAttempts=3,
nextRunAt=now, and the payment's swapStatus set to queued. -/
def specEnqueuedDb (gen : Gen) (db : DB) (payment : Payment) : DB :=
  { db with
    swapJobs := db.swapJobs ++
      [ { id := gen.jobId
          paymentId := payment.id
          status := JobStatus.queued
          attempts := 0
          maxAttempts := 3
          nextRunAt := gen.now
          lockedAt := none
          lockedBy := none
          completedAt := none
          error := none } ]
    payments := db.payments.map (fun p =>
      if p.id = payment.id then { p with swapStatus := SwapStatus.queued } else p) }

/-- Spec-side model of §4.5 `maybeEnqueue(payment, policy)`: the first
failing check short-circuits with its reason and performs no write; when
all checks pass the enqueued state of `specEnqueuedDb` results. -/
def specMaybeEnqueue (cfg : Cfg) (gen : Gen) (db : DB) (payment : Payment)
    (paytag : Paytag) : EnqueueOutcome × DB :=
  match specEligibilityFailure cfg db payment paytag with
  | some reason => (reason, db)
  | none => (.enqueued, specEnqueuedDb gen db payment)

/-- The verification call of the current `processWebhook` revision: it
hands `verifyWebhookSignature` the raw body captured by the route's
`preParsing` hook, not anything derived from the parsed payload. -/
def processWebhookVerifies (cache : List (String × String))
    (network : Except String String)
    (createKey : String → Except String String)
    (cryptoVerify : String → String → String → Except String Bool)
    (payload : Json) (rawBody signature keyId : String) : Bool :=
  verifyWebhookSignature cache network createKey cryptoVerify
    (signatureInputV2 payload rawBody) signature keyId

/-! Concrete fixtures for witnesses and counterexamples. -/

/-- A configuration with autoswap support for native ETH on Base Sepolia
(mirroring the allow-list the source's comment describes). -/
def cfgEx : Cfg :=
  { isProduction := false
    autoswapSupported := fun a c => a == Asset.ETH && c == "BASE-SEPOLIA" }

/-- A configuration whose allow-list admits nothing. -/
def cfgNoSwap : Cfg :=
  { isProduction := false, autoswapSupported := fun _ _ => false }

/-- A deterministic id/clock/oracle environment for concrete runs. -/
def genEx : Gen :=
  { paymentId := "pay-1"
    receiptPublicId := "rcpt-1"
    jobId := "job-1"
    now := 1000
    nowIso := "2026-01-01T00:00:00.000Z"
    publisherConfigured := true
    uploadResult := Except.ok "walrus-blob-1"
    hashDoc := fun _ => "0123456789abcdef0123456789abcdef" }

/-- Same environment with the Walrus upload failing (publisher unreachable). -/
def genMirrorFail : Gen :=
  { genEx with uploadResult := Except.error "ECONNREFUSED" }

/-- A second-id environment, standing for the fresh `createId`/`nanoid`
draws of a replayed delivery. -/
def genEx2 : Gen :=
  { genEx with paymentId := "pay-2", receiptPublicId := "rcpt-2", jobId := "job-2" }

def paytagEx : Paytag :=
  { id := "pt-1", userId := "u-1", handle := "alice", circleWalletAddress := "0xwallet1" }

def userEx : UserRow :=
  { id := "u-1"
    autoswapEnabled := true
    autoswapSlippageBps := 50
    autoswapMaxGasGwei := none
    autoswapMinAmountWei := none }

/-- An initial database with one registered paytag and its user. -/
def dbEx : DB :=
  { paytags := [paytagEx], users := [userEx], payments := [], receipts := [], swapJobs := [] }

/-- A CONFIRMED inbound ETH deposit notification for the registered wallet. -/
def eventEx : WebhookEvent :=
  { destinationAddress := some "0xwallet1"
    transactionId := some "tx-1"
    amount := some "0.10"
    tokenId := some "979869da-9115-5f7d-917d-12d434e56ae7"
    blockchain := some "BASE-SEPOLIA"
    txHash := some "0xhash1"
    timestamp := none }

/-- Wire bytes of a webhook delivery whose JSON body contains interior
whitespace (an empty object with a space between the braces). -/
def c2RawBody : String := "\x7b \x7d"

/-- The parsed payload of `c2RawBody`. -/
def c2Payload : Json := Json.obj JsonMembers.nil

/-- A deposit event for the registered wallet whose amount is the decimal
string "0.0" — a zero-valued amount in a format other than the literal
string "0". -/
def eventZeroAmount : WebhookEvent :=
  { eventEx with transactionId := some "tx-zero", txHash := some "0xhash-zero", amount := some "0.0" }

/-- The payment row used by the C8 concrete run. -/
def paymentEx : Payment := mkInsertedPayment genEx eventEx "rawbody" paytagEx

/-- A queued, due swap job for the C9 concrete interleaving. -/
def jobA : SwapJob :=
  { id := "job-a"
    paymentId := "pay-a"
    status := JobStatus.queued
    attempts := 0
    maxAttempts := 3
    nextRunAt := 0
    lockedAt := none
    lockedBy := none
    completedAt := none
    error := none }

/-- A second queued, due swap job. -/
def jobB : SwapJob := { jobA with id := "job-b", paymentId := "pay-b" }

/-- Two workers racing over both jobs, each job attempted twice. -/
def attemptsEx : List (String × String) :=
  [("w1", "job-a"), ("w2", "job-a"), ("w2", "job-b"), ("w1", "job-b")]

/-- A deposit event carrying a vendor token id outside the static table. -/
def eventUnknownToken : WebhookEvent :=
  { eventEx with
    transactionId := some "tx-u"
    txHash := some "0xhash-u"
    tokenId := some "deadbeef-0000-0000-0000-000000000000" }

/-! Helper lemmas about the embedded operations. -/

/-- `generateReceipt` only appends to the receipts table. -/
theorem generateReceipt_payments (gen : Gen) (db : DB) (payment : Payment)
    (paytag : Paytag) (event : WebhookEvent) :
    (generateReceipt gen db payment paytag event).2.payments = db.payments := rfl

theorem generateReceipt_paytags (gen : Gen) (db : DB) (payment : Payment)
    (paytag : Paytag) (event : WebhookEvent) :
    (generateReceipt gen db payment paytag event).2.paytags = db.paytags := rfl

theorem generateReceipt_users (gen : Gen) (db : DB) (payment : Payment)
    (paytag : Paytag) (event : WebhookEvent) :
    (generateReceipt gen db payment paytag event).2.users = db.users := rfl

theorem generateReceipt_swapJobs (gen : Gen) (db : DB) (payment : Payment)
    (paytag : Paytag) (event : WebhookEvent) :
    (generateReceipt gen db payment paytag event).2.swapJobs = db.swapJobs := rfl

theorem generateReceipt_receipts (gen : Gen) (db : DB) (payment : Payment)
    (paytag : Paytag) (event : WebhookEvent) :
    (generateReceipt gen db payment paytag event).2.receipts =
      db.receipts ++ [(generateReceipt gen db payment paytag event).1] := rfl

/-- The swap-status update of a successful enqueue does not change any
projection of a payment row that ignores `swapStatus`. -/
theorem map_proj_swapStatus_update {α : Type} (proj : Payment → α)
    (hproj : ∀ p, proj { p with swapStatus := SwapStatus.queued } = proj p)
    (pid : String) (l : List Payment) :
    (l.map (fun p => if p.id = pid then { p with swapStatus := SwapStatus.queued } else p)).map proj
      = l.map proj := by
  rw [List.map_map]
  apply List.map_congr_left
  intro p _
  simp only [Function.comp_apply]
  by_cases h : p.id = pid
  · rw [if_pos h]; exact hproj p
  · rw [if_neg h]

/-- `checkAndEnqueueAutoswap` either leaves the database unchanged or
produces exactly the enqueued state. -/
theorem checkAndEnqueueAutoswap_cases (cfg : Cfg) (gen : Gen) (db : DB)
    (payment : Payment) (paytag : Paytag) :
    (checkAndEnqueueAutoswap cfg gen db payment paytag).2 = db ∨
    (checkAndEnqueueAutoswap cfg gen db payment paytag).2 = specEnqueuedDb gen db payment := by
  unfold checkAndEnqueueAutoswap enqueueSwapJob specEnqueuedDb mkSwapJob
  repeat' split
  all_goals first
    | exact Or.inl rfl
    | exact Or.inr rfl

/-- The payments table after `checkAndEnqueueAutoswap`, projected through a
swap-status-blind projection, is unchanged. -/
theorem checkAndEnqueueAutoswap_payments_proj {α : Type} (proj : Payment → α)
    (hproj : ∀ p, proj { p with swapStatus := SwapStatus.queued } = proj p)
    (cfg : Cfg) (gen : Gen) (db : DB) (payment : Payment) (paytag : Paytag) :
    (checkAndEnqueueAutoswap cfg gen db payment paytag).2.payments.map proj
      = db.payments.map proj := by
  rcases checkAndEnqueueAutoswap_cases cfg gen db payment paytag with h | h <;> rw [h]
  exact map_proj_swapStatus_update proj hproj payment.id db.payments

theorem checkAndEnqueueAutoswap_paytags (cfg : Cfg) (gen : Gen) (db : DB)
    (payment : Payment) (paytag : Paytag) :
    (checkAndEnqueueAutoswap cfg gen db payment paytag).2.paytags = db.paytags := by
  rcases checkAndEnqueueAutoswap_cases cfg gen db payment paytag with h | h <;> rw [h] <;> rfl

theorem checkAndEnqueueAutoswap_users (cfg : Cfg) (gen : Gen) (db : DB)
    (payment : Payment) (paytag : Paytag) :
    (checkAndEnqueueAutoswap cfg gen db payment paytag).2.users = db.users := by
  rcases checkAndEnqueueAutoswap_cases cfg gen db payment paytag with h | h <;> rw [h] <;> rfl

/-- `checkAndEnqueueAutoswap` appends at most one job row, and any appended
row has `paymentId = payment.id`. -/
theorem checkAndEnqueueAutoswap_swapJobs_cases (cfg : Cfg) (gen : Gen) (db : DB)
    (payment : Payment) (paytag : Paytag) :
    (checkAndEnqueueAutoswap cfg gen db payment paytag).2.swapJobs = db.swapJobs ∨
    (checkAndEnqueueAutoswap cfg gen db payment paytag).2.swapJobs
      = db.swapJobs ++ [mkSwapJob gen payment] := by
  rcases checkAndEnqueueAutoswap_cases cfg gen db payment paytag with h | h <;> rw [h]
  · exact Or.inl rfl
  · exact Or.inr rfl

/-- Every early return of `handleInboundTransaction` leaves the database
unchanged; only the `recorded` outcome writes. -/
theorem handleInbound_db_cases (cfg : Cfg) (gen : Gen) (db : DB)
    (event : WebhookEvent) (raw : String) :
    (handleInboundTransaction cfg gen db event raw).2 = db ∨
    ∃ e, (handleInboundTransaction cfg gen db event raw).1 = InboundOutcome.recorded e := by
  unfold handleInboundTransaction
  repeat' split
  all_goals first
    | exact Or.inl rfl
    | exact Or.inr ⟨_, rfl⟩

/-- Eliminating a `recorded` outcome: all the guards passed and the final
state is `checkAndEnqueueAutoswap` applied after `generateReceipt` applied
after the payment insert. -/
theorem handleInbound_recorded_elim (cfg : Cfg) (gen : Gen) (db : DB)
    (event : WebhookEvent) (raw : String)
    (hrec : ∃ e, (handleInboundTransaction cfg gen db event raw).1 = InboundOutcome.recorded e) :
    (truthy event.destinationAddress && truthy event.transactionId) = true ∧
    (!(truthy event.amount) || (event.amount == some "0")) = false ∧
    isSupportedBlockchain cfg.isProduction event.blockchain = true ∧
    ∃ paytag,
      db.paytags.find? (fun p => p.circleWalletAddress == jsOr event.destinationAddress "")
        = some paytag ∧
      ¬ (∃ p ∈ db.payments, p.circleTransferId = some (jsOr event.transactionId "")) ∧
      (!(truthy event.txHash) || db.payments.any (fun p => p.txHash == jsOr event.txHash "")) = false ∧
      (handleInboundTransaction cfg gen db event raw).2 =
        (checkAndEnqueueAutoswap cfg gen
          (generateReceipt gen
            { db with payments := db.payments ++ [mkInsertedPayment gen event raw paytag] }
            (mkInsertedPayment gen event raw paytag) paytag event).2
          (mkInsertedPayment gen event raw paytag) paytag).2 := by
  obtain ⟨e, he⟩ := hrec
  unfold handleInboundTransaction at he ⊢
  by_cases hc1 : (!(truthy event.destinationAddress && truthy event.transactionId)) = true
  · rw [if_pos hc1] at he; exact absurd he (by simp)
  rw [if_neg hc1] at he ⊢
  by_cases hc2 : (!(truthy event.amount) || (event.amount == some "0")) = true
  · rw [if_pos hc2] at he; exact absurd he (by simp)
  rw [if_neg hc2] at he ⊢
  by_cases hc3 : (!(isSupportedBlockchain cfg.isProduction event.blockchain)) = true
  · rw [if_pos hc3] at he; exact absurd he (by simp)
  rw [if_neg hc3] at he ⊢
  cases hf : db.paytags.find? (fun p => p.circleWalletAddress == jsOr event.destinationAddress "") with
  | none =>
    rw [hf] at he
    simp at he
  | some paytag =>
    rw [hf] at he
    dsimp only at he ⊢
    by_cases hdup : ∃ p ∈ db.payments, p.circleTransferId = some (jsOr event.transactionId "")
    · rw [if_pos hdup] at he; exact absurd he (by simp)
    rw [if_neg hdup] at he ⊢
    by_cases htx : (!(truthy event.txHash) || db.payments.any (fun p => p.txHash == jsOr event.txHash "")) = true
    · rw [if_pos htx] at he; exact absurd he (by simp)
    rw [if_neg htx] at he ⊢
    refine ⟨?_, ?_, ?_, paytag, rfl, hdup, ?_, rfl⟩
    · simpa using hc1
    · simpa using hc2
    · simpa using hc3
    · simpa using htx

/-- Counting payments through a swap-status-blind predicate is unchanged
by the enqueue's swap-status update. -/
theorem countP_swapStatus_update (q : Payment → Bool)
    (hq : ∀ p, q { p with swapStatus := SwapStatus.queued } = q p)
    (pid : String) (l : List Payment) :
    (l.map (fun p => if p.id = pid then { p with swapStatus := SwapStatus.queued } else p)).countP q
      = l.countP q := by
  rw [List.countP_map]
  apply List.countP_congr
  intro p _
  simp only [Function.comp_apply]
  by_cases h : p.id = pid
  · rw [if_pos h, hq]
  · rw [if_neg h]

/-- The payments table after `checkAndEnqueueAutoswap`, counted through a
swap-status-blind predicate, is unchanged. -/
theorem checkAndEnqueueAutoswap_payments_countP (q : Payment → Bool)
    (hq : ∀ p, q { p with swapStatus := SwapStatus.queued } = q p)
    (cfg : Cfg) (gen : Gen) (db : DB) (payment : Payment) (paytag : Paytag) :
    (checkAndEnqueueAutoswap cfg gen db payment paytag).2.payments.countP q
      = db.payments.countP q := by
  rcases checkAndEnqueueAutoswap_cases cfg gen db payment paytag with h | h <;> rw [h]
  exact countP_swapStatus_update q hq payment.id db.payments



/-- C10: for every recorded Payment, the issued Receipt's `amountUSDC` and
`amountIn` both equal the Payment's `amount` string verbatim (in the
persisted row and in the mirrored document alike), for every asset — no
currency conversion is applied when building the receipt. -/
theorem receipt_amounts_are_payment_amount_verbatim :
    ∀ (gen : Gen) (db : DB) (payment : Payment) (paytag : Paytag) (event : WebhookEvent),
      (generateReceipt gen db payment paytag event).1.amountUSDC = payment.amount ∧
      (generateReceipt gen db payment paytag event).1.amountIn = payment.amount ∧
      (mkReceiptDoc gen payment paytag event).amountUSDC = payment.amount ∧
      (mkReceiptDoc gen payment paytag event).amountIn = payment.amount ∧
      (generateReceipt gen db payment paytag event).2.receipts
        = db.receipts ++ [(generateReceipt gen db payment paytag event).1] := by
  intro gen db payment paytag event
  exact ⟨rfl, rfl, rfl, rfl, rfl⟩

/-- C5: `verifyWebhookSignature` never throws — it is a total function
into `Bool` — and it returns `true` exactly when the key fetch, the key
import, and the ECDSA check all succeed with a matching digest; every
error outcome (fetch failure, malformed key, throwing verify) yields
`false`. -/
theorem verifyWebhookSignature_false_on_any_error :
    ∀ (cache : List (String × String)) (network : Except String String)
      (createKey : String → Except String String)
      (cryptoVerify : String → String → String → Except String Bool)
      (payload signature keyId : String),
      verifyWebhookSignature cache network createKey cryptoVerify payload signature keyId = true
        ↔ ∃ k pk, fetchPublicKey cache keyId network = Except.ok k ∧
            createKey k = Except.ok pk ∧ cryptoVerify pk payload signature = Except.ok true := by
  intro cache network createKey cryptoVerify payload signature keyId
  unfold verifyWebhookSignature
  cases hf : fetchPublicKey cache keyId network with
  | error e => simp [hf]
  | ok k =>
    cases hc : createKey k with
    | error e => simp [hf, hc]
    | ok pk =>
      cases hv : cryptoVerify pk payload signature with
      | error e => simp [hf, hc, hv]
      | ok b => cases b <;> simp [hf, hc, hv]

/-- C4 counterexample: a first-sighting deposit run on a fresh database
inserts the Payment with status `completed`, not `detected`. -/
theorem first_sighting_payment_status_is_completed :
    ((handleInboundTransaction cfgNoSwap genEx dbEx eventEx "rawbody").2.payments.map
        (fun p => p.status)) = [PaymentStatus.completed] ∧
      PaymentStatus.completed ≠ PaymentStatus.detected := by
  constructor
  · rfl
  · intro h
    cases h

/-- C4 amended: `handleInboundTransaction` either writes no payment row or
appends exactly one, and any appended row carries status `completed` (the
insert overrides the schema's `detected` default). -/
theorem handleInbound_inserts_status_completed :
    ∀ (cfg : Cfg) (gen : Gen) (db : DB) (event : WebhookEvent) (raw : String),
      (handleInboundTransaction cfg gen db event raw).2.payments.map (fun p => p.status)
          = db.payments.map (fun p => p.status) ∨
      (handleInboundTransaction cfg gen db event raw).2.payments.map (fun p => p.status)
          = db.payments.map (fun p => p.status) ++ [PaymentStatus.completed] := by
  intro cfg gen db event raw
  rcases handleInbound_db_cases cfg gen db event raw with h | h
  · exact Or.inl (by rw [h])
  · right
    obtain ⟨_, _, _, paytag, _, _, _, hstate⟩ :=
      handleInbound_recorded_elim cfg gen db event raw h
    rw [hstate]
    rw [checkAndEnqueueAutoswap_payments_proj (fun p => p.status) (fun p => rfl)]
    rw [generateReceipt_payments]
    simp [mkInsertedPayment]

/-- C2 counterexample: for the delivery whose wire bytes are `c2RawBody`,
the earlier `processWebhook` revision passes `JSON.stringify(payload)` to
signature verification, and that re-serialization differs from the exact
raw request body; the current revision passes the raw body unchanged. -/
theorem reserialized_signature_input_differs_from_wire :
    parseJson c2RawBody = some c2Payload ∧
    signatureInputV1 c2Payload c2RawBody ≠ c2RawBody ∧
    signatureInputV2 c2Payload c2RawBody = c2RawBody := by
  refine ⟨rfl, ?_, rfl⟩
  intro h
  exact absurd (congrArg String.length h) (by decide)

/-- C2 amended: in the current revision (raw-body capture in the route's
`preParsing` hook handed through `processWebhook`), the byte sequence
verified is exactly the raw request body, so the verification outcome is
independent of the parsed payload. -/
theorem current_signature_input_is_raw_body :
    ∀ (cache : List (String × String)) (network : Except String String)
      (createKey : String → Except String String)
      (cryptoVerify : String → String → String → Except String Bool)
      (payload payload2 : Json) (rawBody signature keyId : String),
      signatureInputV2 payload rawBody = rawBody ∧
      processWebhookVerifies cache network createKey cryptoVerify payload rawBody signature keyId
        = verifyWebhookSignature cache network createKey cryptoVerify rawBody signature keyId ∧
      processWebhookVerifies cache network createKey cryptoVerify payload rawBody signature keyId
        = processWebhookVerifies cache network createKey cryptoVerify payload2 rawBody signature keyId := by
  intro cache network createKey cryptoVerify payload payload2 rawBody signature keyId
  exact ⟨rfl, rfl, rfl⟩

/-- C7 counterexample: in the earlier `normalizeTokenId` revision
(src/src/services/webhook.service.ts), an absent token id — and equally an
id outside every mapping table — normalizes to USDC, not UNKNOWN. -/
theorem v1_normalizes_unmapped_token_to_usdc :
    normalizeTokenIdV1 none = Asset.USDC ∧
    normalizeTokenIdV1 (some "ffffffff-0000-0000-0000-000000000000") = Asset.USDC ∧
    Asset.USDC ≠ Asset.UNKNOWN := by
  refine ⟨rfl, rfl, ?_⟩
  intro h
  cases h

/-- C7 amended: in the current revision's static table, an absent or
unmapped vendor token id normalizes to UNKNOWN, and such an event still
produces a Payment whenever the deposit is otherwise recordable — the
recorded run appends exactly one payment row with asset UNKNOWN. -/
theorem unmapped_token_records_unknown_payment :
    ∀ (cfg : Cfg) (gen : Gen) (db : DB) (event : WebhookEvent) (raw : String),
      (hunmapped : truthy event.tokenId = false ∨
          TOKEN_ID_MAP.lookup (jsOr event.tokenId "") = none) →
      (hrec : ∃ e, (handleInboundTransaction cfg gen db event raw).1 = InboundOutcome.recorded e) →
      normalizeTokenId event.tokenId = Asset.UNKNOWN ∧
      (handleInboundTransaction cfg gen db event raw).2.payments.map (fun p => p.asset)
        = db.payments.map (fun p => p.asset) ++ [Asset.UNKNOWN] := by
  intro cfg gen db event raw hunmapped hrec
  have hunk : normalizeTokenId event.tokenId = Asset.UNKNOWN := by
    unfold normalizeTokenId
    rcases hunmapped with h | h
    · rw [h]; rfl
    · rcases ht : truthy event.tokenId with _ | _
      · rfl
      · simp only [ht, Bool.not_true, Bool.false_eq_true, if_false, h]
  refine ⟨hunk, ?_⟩
  obtain ⟨_, _, _, paytag, _, _, _, hstate⟩ :=
    handleInbound_recorded_elim cfg gen db event raw hrec
  rw [hstate]
  rw [checkAndEnqueueAutoswap_payments_proj (fun p => p.asset) (fun p => rfl)]
  rw [generateReceipt_payments]
  simp [mkInsertedPayment, hunk]

/-- C6 counterexample: an event whose amount is the zero-valued string
"0.0" passes the `!amount || amount === '0'` guard and is recorded — a
payment row is written even though the event lacks a non-zero amount
(`parseEtherViem "0.0" = 0`). -/
theorem zero_valued_amount_is_recorded :
    parseEtherViem "0.0" = some 0 ∧
    (handleInboundTransaction cfgNoSwap genEx dbEx eventZeroAmount "rawbody").2.payments.map
        (fun p => p.amount) = ["0.0"] := by
  constructor
  · rfl
  · rfl

/-- C6 amended: payment recording refuses to record — returns with the
database untouched — events missing `destinationAddress`, missing
`externalTransactionId`, or whose amount is absent, empty, or the literal
string "0"; zero-valued amounts in any other spelling (such as "0.0") are
not rejected by this guard. -/
theorem missing_fields_perform_no_write :
    ∀ (cfg : Cfg) (gen : Gen) (db : DB) (event : WebhookEvent) (raw : String),
      (hbad : truthy event.destinationAddress = false ∨ truthy event.transactionId = false ∨
          truthy event.amount = false ∨ event.amount = some "0") →
      (handleInboundTransaction cfg gen db event raw).2 = db := by
  intro cfg gen db event raw hbad
  unfold handleInboundTransaction
  rcases hbad with h | h | h | h
  · rw [if_pos (by simp [h])]
  · rw [if_pos (by simp [h])]
  · by_cases h1 : (!(truthy event.destinationAddress && truthy event.transactionId)) = true
    · rw [if_pos h1]
    · rw [if_neg h1, if_pos (by simp [h])]
  · by_cases h1 : (!(truthy event.destinationAddress && truthy event.transactionId)) = true
    · rw [if_pos h1]
    · rw [if_neg h1, if_pos (by simp [h])]

/-- C6 amended witness: the rejection at a concrete input with a missing
destination address. -/
theorem missing_fields_perform_no_write_witness :
    (handleInboundTransaction cfgNoSwap genEx dbEx
        { eventEx with destinationAddress := none } "rawbody").2 = dbEx :=
  missing_fields_perform_no_write cfgNoSwap genEx dbEx
    { eventEx with destinationAddress := none } "rawbody" (Or.inl rfl)

/-- The receipt row's blob-reference fields always come from `storeBlob`. -/
theorem generateReceipt_blobId (gen : Gen) (db : DB) (payment : Payment)
    (paytag : Paytag) (event : WebhookEvent) :
    (generateReceipt gen db payment paytag event).1.walrusBlobId
      = some (storeBlob gen.publisherConfigured gen.uploadResult
          (gen.hashDoc (mkReceiptDoc gen payment paytag event))).blobId := rfl

theorem generateReceipt_hash (gen : Gen) (db : DB) (payment : Payment)
    (paytag : Paytag) (event : WebhookEvent) :
    (generateReceipt gen db payment paytag event).1.receiptHash
      = some (storeBlob gen.publisherConfigured gen.uploadResult
          (gen.hashDoc (mkReceiptDoc gen payment paytag event))).hash := rfl

/-- When the Walrus upload fails, `storeBlob` returns the local fallback
reference, never an error. -/
theorem storeBlob_on_upload_error (configured : Bool) (e docHash : String) :
    storeBlob configured (Except.error e) docHash
      = { blobId := "local_" ++ take16 docHash, hash := docHash } := by
  unfold storeBlob
  cases configured <;> rfl

/-- C8 counterexample: with the blob store unreachable
(`uploadResult = error`), the Receipt row is still written and no error
escapes, but its blob-reference fields are NOT left null: they hold the
local fallback blob id `local_<hash prefix>` and the locally computed
content hash. -/
theorem mirror_failure_fields_not_null :
    (generateReceipt genMirrorFail dbEx paymentEx paytagEx eventEx).2.receipts.length = 1 ∧
    (generateReceipt genMirrorFail dbEx paymentEx paytagEx eventEx).1.walrusBlobId
      = some "local_0123456789abcdef" ∧
    (generateReceipt genMirrorFail dbEx paymentEx paytagEx eventEx).1.receiptHash
      = some "0123456789abcdef0123456789abcdef" ∧
    (generateReceipt genMirrorFail dbEx paymentEx paytagEx eventEx).1.walrusBlobId ≠ none ∧
    (generateReceipt genMirrorFail dbEx paymentEx paytagEx eventEx).1.receiptHash ≠ none := by
  refine ⟨rfl, rfl, rfl, by decide, by decide⟩

/-- C8 amended: on mirror failure receipt issuance still writes the
Receipt row and propagates no error (the function is total into
`Receipt × DB`); the blob-reference fields are set to the local fallback
id and the content hash rather than left null. -/
theorem mirror_failure_still_writes_receipt :
    ∀ (gen : Gen) (db : DB) (payment : Payment) (paytag : Paytag)
      (event : WebhookEvent) (e : String),
      (herr : gen.uploadResult = Except.error e) →
      (generateReceipt gen db payment paytag event).2.receipts
          = db.receipts ++ [(generateReceipt gen db payment paytag event).1] ∧
      (generateReceipt gen db payment paytag event).1.walrusBlobId
          = some ("local_" ++ take16 (gen.hashDoc (mkReceiptDoc gen payment paytag event))) ∧
      (generateReceipt gen db payment paytag event).1.receiptHash
          = some (gen.hashDoc (mkReceiptDoc gen payment paytag event)) := by
  intro gen db payment paytag event e herr
  refine ⟨rfl, ?_, ?_⟩
  · rw [generateReceipt_blobId, herr, storeBlob_on_upload_error]
  · rw [generateReceipt_hash, herr, storeBlob_on_upload_error]

/-- C8 amended witness: the amended statement at the concrete failing
upload. -/
theorem mirror_failure_still_writes_receipt_witness :
    (generateReceipt genMirrorFail dbEx paymentEx paytagEx eventEx).2.receipts
        = dbEx.receipts ++ [(generateReceipt genMirrorFail dbEx paymentEx paytagEx eventEx).1] ∧
    (generateReceipt genMirrorFail dbEx paymentEx paytagEx eventEx).1.walrusBlobId
        = some ("local_" ++ take16 (genMirrorFail.hashDoc
            (mkReceiptDoc genMirrorFail paymentEx paytagEx eventEx))) ∧
    (generateReceipt genMirrorFail dbEx paymentEx paytagEx eventEx).1.receiptHash
        = some (genMirrorFail.hashDoc (mkReceiptDoc genMirrorFail paymentEx paytagEx eventEx)) :=
  mirror_failure_still_writes_receipt genMirrorFail dbEx paymentEx paytagEx eventEx
    "ECONNREFUSED" rfl

/-- C3: `checkAndEnqueueAutoswap` refines the spec's `maybeEnqueue` — the
ordered eligibility checks short-circuit with the first failing reason and
no write, and when every check passes exactly one
SwapJob(queued, attempts=0, maxAttempts=3, nextRunAt=now) is inserted with
the payment's swapStatus set to queued. -/
theorem autoswap_enqueue_matches_spec :
    ∀ (cfg : Cfg) (gen : Gen) (db : DB) (payment : Payment) (paytag : Paytag),
      checkAndEnqueueAutoswap cfg gen db payment paytag
        = specMaybeEnqueue cfg gen db payment paytag := by
  intro cfg gen db payment paytag
  unfold checkAndEnqueueAutoswap specMaybeEnqueue specEligibilityFailure
  rcases hsup : cfg.autoswapSupported payment.asset payment.chain with _ | _
  · simp [hsup, List.find?]
  · rcases hpol : (db.paytags.find? (fun p => p.id == paytag.id)).bind
        (fun p => db.users.find? (fun u => u.id == p.userId)) with _ | user
    · simp [hsup, hpol, List.find?, policyEnabled, minCheckState]
    · rcases hen : user.autoswapEnabled with _ | _
      · simp [hsup, hpol, hen, List.find?, policyEnabled, minCheckState]
      · rcases hmin : truthy user.autoswapMinAmountWei with _ | _
        · by_cases hjob : ∃ j ∈ db.swapJobs, j.paymentId = payment.id
          · simp [hsup, hpol, hen, hmin, hjob, List.find?, policyEnabled,
              minCheckState, enqueueSwapJob]
          · simp [hsup, hpol, hen, hmin, hjob, List.find?, policyEnabled,
              minCheckState, enqueueSwapJob, specEnqueuedDb, mkSwapJob]
        · rcases hpm : parseBigIntJs (jsOr user.autoswapMinAmountWei "") with _ | m
          · simp [hsup, hpol, hen, hmin, hpm, List.find?, policyEnabled, minCheckState]
          · rcases hpe : parseEtherViem payment.amount with _ | w
            · simp [hsup, hpol, hen, hmin, hpm, hpe, List.find?, policyEnabled, minCheckState]
            · by_cases hlt : w < m
              · simp [hsup, hpol, hen, hmin, hpm, hpe, hlt, List.find?, policyEnabled,
                  minCheckState]
              · by_cases hjob : ∃ j ∈ db.swapJobs, j.paymentId = payment.id
                · simp [hsup, hpol, hen, hmin, hpm, hpe, hlt, hjob, List.find?,
                    policyEnabled, minCheckState, enqueueSwapJob]
                · simp [hsup, hpol, hen, hmin, hpm, hpe, hlt, hjob, List.find?,
                    policyEnabled, minCheckState, enqueueSwapJob, specEnqueuedDb, mkSwapJob]

/-- C1: replaying a deposit notification whose `externalTransactionId` is
already recorded is a pure no-op — the second call returns
`alreadyRecorded` with the state unchanged, inserting no Payment and
enqueuing no SwapJob — so after a first delivery that records, exactly one
Payment and at most one SwapJob exist for that notification. -/
theorem duplicate_delivery_is_noop :
    ∀ (cfg : Cfg) (gen gen2 : Gen) (db : DB) (event : WebhookEvent) (raw raw2 : String),
      (hfresh : ∀ p ∈ db.payments, p.circleTransferId ≠ some (jsOr event.transactionId "")) →
      (hjobfresh : ∀ j ∈ db.swapJobs, j.paymentId ≠ gen.paymentId) →
      (hrec : ∃ e, (handleInboundTransaction cfg gen db event raw).1 = InboundOutcome.recorded e) →
      handleInboundTransaction cfg gen2 (handleInboundTransaction cfg gen db event raw).2 event raw2
          = (InboundOutcome.alreadyRecorded, (handleInboundTransaction cfg gen db event raw).2) ∧
      (handleInboundTransaction cfg gen db event raw).2.payments.countP
          (fun p => p.circleTransferId == some (jsOr event.transactionId "")) = 1 ∧
      (handleInboundTransaction cfg gen db event raw).2.swapJobs.countP
          (fun j => j.paymentId == gen.paymentId) ≤ 1 := by
  intro cfg gen gen2 db event raw raw2 hfresh hjobfresh hrec
  obtain ⟨hg1, hg2, hg3, paytag, hf, hdup, htxg, hstate⟩ :=
    handleInbound_recorded_elim cfg gen db event raw hrec
  have hpaytags : (handleInboundTransaction cfg gen db event raw).2.paytags = db.paytags := by
    rw [hstate, checkAndEnqueueAutoswap_paytags, generateReceipt_paytags]
  have hzero : db.payments.countP
      (fun p => p.circleTransferId == some (jsOr event.transactionId "")) = 0 := by
    rw [List.countP_eq_zero]
    intro p hp
    simpa using hfresh p hp
  have hcount : (handleInboundTransaction cfg gen db event raw).2.payments.countP
      (fun p => p.circleTransferId == some (jsOr event.transactionId "")) = 1 := by
    rw [hstate,
      checkAndEnqueueAutoswap_payments_countP
        (fun p => p.circleTransferId == some (jsOr event.transactionId "")) (fun p => rfl),
      generateReceipt_payments]
    show (db.payments ++ [mkInsertedPayment gen event raw paytag]).countP _ = 1
    rw [List.countP_append, hzero]
    simp [mkInsertedPayment]
  have hjzero : db.swapJobs.countP (fun j => j.paymentId == gen.paymentId) = 0 := by
    rw [List.countP_eq_zero]
    intro j hj
    simpa using hjobfresh j hj
  have hjcount : (handleInboundTransaction cfg gen db event raw).2.swapJobs.countP
      (fun j => j.paymentId == gen.paymentId) ≤ 1 := by
    rw [hstate]
    rcases checkAndEnqueueAutoswap_swapJobs_cases cfg gen
        (generateReceipt gen
          { db with payments := db.payments ++ [mkInsertedPayment gen event raw paytag] }
          (mkInsertedPayment gen event raw paytag) paytag event).2
        (mkInsertedPayment gen event raw paytag) paytag with hj | hj <;>
      rw [hj, generateReceipt_swapJobs]
    · rw [hjzero]
      exact Nat.zero_le 1
    · rw [List.countP_append, hjzero]
      simp [mkSwapJob, mkInsertedPayment]
  have hdup2 : ∃ p ∈ (handleInboundTransaction cfg gen db event raw).2.payments,
      p.circleTransferId = some (jsOr event.transactionId "") := by
    have hpos : 0 < (handleInboundTransaction cfg gen db event raw).2.payments.countP
        (fun p => p.circleTransferId == some (jsOr event.transactionId "")) := by
      rw [hcount]; exact Nat.zero_lt_one
    obtain ⟨p, hp, hq⟩ := List.countP_pos_iff.mp hpos
    exact ⟨p, hp, by simpa using hq⟩
  refine ⟨?_, hcount, hjcount⟩
  set db1 := (handleInboundTransaction cfg gen db event raw).2 with hdb1
  unfold handleInboundTransaction
  rw [if_neg (by simp [hg1]), if_neg (by simp at hg2 ⊢; exact hg2),
    if_neg (by simp [hg3]), hpaytags, hf]
  dsimp only
  rw [if_pos hdup2]

/-- C1 witness: the replay no-op at a concrete recorded delivery (an ETH
deposit that also enqueued a swap job on first processing). -/
theorem duplicate_delivery_is_noop_witness :
    handleInboundTransaction cfgEx genEx2
        (handleInboundTransaction cfgEx genEx dbEx eventEx "raw1").2 eventEx "raw1"
        = (InboundOutcome.alreadyRecorded,
            (handleInboundTransaction cfgEx genEx dbEx eventEx "raw1").2) ∧
      (handleInboundTransaction cfgEx genEx dbEx eventEx "raw1").2.payments.countP
          (fun p => p.circleTransferId == some (jsOr eventEx.transactionId "")) = 1 ∧
      (handleInboundTransaction cfgEx genEx dbEx eventEx "raw1").2.swapJobs.countP
          (fun j => j.paymentId == genEx.paymentId) ≤ 1 :=
  duplicate_delivery_is_noop cfgEx genEx genEx2 dbEx eventEx "raw1" "raw1"
    (by intro p hp; simp [dbEx] at hp) (by intro j hj; simp [dbEx] at hj)
    ⟨EnqueueOutcome.enqueued, rfl⟩

/-! Lemmas for the worker-claim interleaving model. -/

/-- After a successful claim, the claimed job id is no longer claimable. -/
theorem claimable_lockAll_self (now : Nat) (w : String) (jobs : List SwapJob) (t : String) :
    ¬ claimable now (lockAll now w jobs t) t := by
  rintro ⟨j, hj, hid, hstat, _⟩
  obtain ⟨j0, hj0, rfl⟩ := List.mem_map.mp hj
  by_cases h : j0.id = t
  · rw [if_pos h] at hstat
    exact absurd hstat (by simp)
  · rw [if_neg h] at hid
    exact h hid

/-- A claim on one id leaves the claimability of every other id unchanged. -/
theorem claimable_lockAll_ne (now : Nat) (w : String) (jobs : List SwapJob)
    {s t : String} (hne : s ≠ t) :
    claimable now (lockAll now w jobs t) s ↔ claimable now jobs s := by
  constructor
  · rintro ⟨j, hj, hid, hstat, hrun⟩
    obtain ⟨j0, hj0, rfl⟩ := List.mem_map.mp hj
    by_cases h : j0.id = t
    · rw [if_pos h] at hid
      simp only at hid
      exact absurd (hid ▸ h) hne
    · rw [if_neg h] at hid hstat hrun
      exact ⟨j0, hj0, hid, hstat, hrun⟩
  · rintro ⟨j, hj, hid, hstat, hrun⟩
    refine ⟨j, List.mem_map.mpr ⟨j, hj, ?_⟩, hid, hstat, hrun⟩
    rw [if_neg (by rw [hid]; exact hne)]

/-- A claim never changes the set of job ids. -/
theorem lockAll_map_id (now : Nat) (w : String) (jobs : List SwapJob) (t : String) :
    (lockAll now w jobs t).map (fun j => j.id) = jobs.map (fun j => j.id) := by
  unfold lockAll
  rw [List.map_map]
  apply List.map_congr_left
  intro j _
  simp only [Function.comp_apply]
  by_cases h : j.id = t
  · rw [if_pos h]
  · rw [if_neg h]

/-- Step equation for `runClaims`. -/
theorem runClaims_cons (now : Nat) (w t : String) (rest : List (String × String))
    (jobs : List SwapJob) :
    runClaims now ((w, t) :: rest) jobs =
      if claimable now jobs t then
        ((w, t) :: (runClaims now rest (lockAll now w jobs t)).1,
          (runClaims now rest (lockAll now w jobs t)).2)
      else runClaims now rest jobs := by
  by_cases h : claimable now jobs t
  · rw [if_pos h]
    simp [runClaims, claimJob, h]
  · rw [if_neg h]
    simp [runClaims, claimJob, h]

/-- Each job id is successfully claimed at most once across any
interleaving of claim attempts. -/
theorem runClaims_countP_le (now : Nat) :
    ∀ (attempts : List (String × String)) (jobs : List SwapJob) (t : String),
      (runClaims now attempts jobs).1.countP (fun a => a.2 == t)
        ≤ if claimable now jobs t then 1 else 0 := by
  intro attempts
  induction attempts with
  | nil =>
    intro jobs t
    simp [runClaims]
  | cons a rest ih =>
    intro jobs t
    obtain ⟨w, s⟩ := a
    rw [runClaims_cons]
    by_cases hcl : claimable now jobs s
    · rw [if_pos hcl]
      by_cases hst : s = t
      · subst hst
        rw [List.countP_cons_of_pos _ _ (by simp)]
        have hle := ih (lockAll now w jobs s) s
        rw [if_neg (claimable_lockAll_self now w jobs s)] at hle
        rw [if_pos hcl]
        omega
      · rw [List.countP_cons_of_neg _ _ (by simp [hst])]
        have hle := ih (lockAll now w jobs s) t
        rwa [if_congr (claimable_lockAll_ne now w jobs (fun h => hst h.symm)) rfl rfl] at hle
    · rw [if_neg hcl]
      exact ih jobs t

/-- Every claimable job id that some worker attempts is successfully
claimed at least once. -/
theorem runClaims_countP_ge (now : Nat) :
    ∀ (attempts : List (String × String)) (jobs : List SwapJob) (t : String),
      claimable now jobs t → (∃ w, (w, t) ∈ attempts) →
      1 ≤ (runClaims now attempts jobs).1.countP (fun a => a.2 == t) := by
  intro attempts
  induction attempts with
  | nil =>
    intro jobs t _ hmem
    obtain ⟨w, hw⟩ := hmem
    exact absurd hw (List.not_mem_nil _)
  | cons a rest ih =>
    intro jobs t hcl hmem
    obtain ⟨w, s⟩ := a
    rw [runClaims_cons]
    by_cases hcls : claimable now jobs s
    · rw [if_pos hcls]
      by_cases hst : s = t
      · subst hst
        rw [List.countP_cons_of_pos _ _ (by simp)]
        omega
      · rw [List.countP_cons_of_neg _ _ (by simp [hst])]
        obtain ⟨w2, hw2⟩ := hmem
        have hw2rest : (w2, t) ∈ rest := by
          rcases List.mem_cons.mp hw2 with h | h
          · injection h with h1 h2
            exact absurd h2.symm hst
          · exact h
        exact ih (lockAll now w jobs s) t
          ((claimable_lockAll_ne now w jobs (fun h => hst h.symm)).mpr hcl) ⟨w2, hw2rest⟩
    · rw [if_neg hcls]
      obtain ⟨w2, hw2⟩ := hmem
      have hw2rest : (w2, t) ∈ rest := by
        rcases List.mem_cons.mp hw2 with h | h
        · injection h with h1 h2
          exact absurd (h2 ▸ hcl) hcls
        · exact h
      exact ih jobs t hcl ⟨w2, hw2rest⟩

/-- Every successful claim in the log targets an existing job id. -/
theorem runClaims_log_targets (now : Nat) :
    ∀ (attempts : List (String × String)) (jobs : List SwapJob)
      (a : String × String), a ∈ (runClaims now attempts jobs).1 →
      a.2 ∈ jobs.map (fun j => j.id) := by
  intro attempts
  induction attempts with
  | nil =>
    intro jobs a ha
    simp [runClaims] at ha
  | cons x rest ih =>
    intro jobs a ha
    obtain ⟨w, s⟩ := x
    rw [runClaims_cons] at ha
    by_cases hcls : claimable now jobs s
    · rw [if_pos hcls] at ha
      rcases List.mem_cons.mp ha with h | h
      · obtain ⟨j, hj, hid, _, _⟩ := hcls
        subst h
        exact List.mem_map.mpr ⟨j, hj, hid⟩
      · have := ih (lockAll now w jobs s) a h
        rwa [lockAll_map_id] at this
    · rw [if_neg hcls] at ha
      exact ih jobs a ha

/-- Splitting a count over a predicate and its negation. -/
theorem countP_bool_split {α : Type} (p : α → Bool) (l : List α) :
    l.countP p + l.countP (fun a => !(p a)) = l.length := by
  induction l with
  | nil => rfl
  | cons x xs ih =>
    by_cases h : p x = true
    · rw [List.countP_cons_of_pos _ _ h, List.countP_cons_of_neg _ _ (by simp [h]),
        List.length_cons]
      omega
    · rw [List.countP_cons_of_neg _ _ h, List.countP_cons_of_pos _ _ (by simp [h]),
        List.length_cons]
      omega

/-- A log whose targets all lie in a duplicate-free id list has length
equal to the sum of its per-id counts. -/
theorem log_length_eq_sum_counts :
    ∀ (ids : List String) (log : List (String × String)),
      ids.Nodup → (∀ a ∈ log, a.2 ∈ ids) →
      log.length = (ids.map (fun t => log.countP (fun a => a.2 == t))).sum := by
  intro ids
  induction ids with
  | nil =>
    intro log _ hsub
    have : log = [] := List.eq_nil_iff_forall_not_mem.mpr
      (fun a ha => by simpa using hsub a ha)
    subst this
    rfl
  | cons t rest ih =>
    intro log hnd hsub
    rw [List.map_cons, List.sum_cons]
    have hsplit := countP_bool_split (fun a => a.2 == t) log
    have hfiltered := ih (log.filter (fun a => !(a.2 == t))) hnd.of_cons ?_
    · have hcounts : ∀ s ∈ rest,
          (log.filter (fun a => !(a.2 == t))).countP (fun a => a.2 == s)
            = log.countP (fun a => a.2 == s) := by
        intro s hs
        have hst : s ≠ t := fun h => (List.nodup_cons.mp hnd).1 (h ▸ hs)
        rw [List.countP_filter]
        apply List.countP_congr
        intro a _
        by_cases ha : a.2 = s
        · simp [ha, hst]
        · simp [ha]
      have hmapeq : rest.map (fun s => (log.filter (fun a => !(a.2 == t))).countP
          (fun a => a.2 == s)) = rest.map (fun s => log.countP (fun a => a.2 == s)) :=
        List.map_congr_left hcounts
      have hfl : (log.filter (fun a => !(a.2 == t))).length
          = log.countP (fun a => !(a.2 == t)) :=
        (List.countP_eq_length_filter _ _).symm
      rw [hfl, hmapeq] at hfiltered
      omega
    · intro a ha
      have hmem := List.mem_filter.mp ha
      have h2 : a.2 ≠ t := by simpa using hmem.2
      rcases List.mem_cons.mp (hsub a hmem.1) with h | h
      · exact absurd h h2
      · exact h

/-- Sum of a list of ones. -/
theorem sum_eq_length_of_ones :
    ∀ (l : List Nat), (∀ x ∈ l, x = 1) → l.sum = l.length := by
  intro l
  induction l with
  | nil => intro _; rfl
  | cons x xs ih =>
    intro h
    rw [List.sum_cons, List.length_cons, h x (List.mem_cons_self x xs),
      ih (fun y hy => h y (List.mem_cons_of_mem x hy))]
    omega

/-- C9: because claiming is a single atomic conditional update on the
SwapJob row, any interleaving of claim attempts by any number of workers
over a batch of queued, due jobs with distinct ids in which every job is
attempted yields exactly `jobs.length` successful claims in total, and no
job id is ever claimed twice. -/
theorem atomic_claim_sum_and_exclusivity :
    ∀ (now : Nat) (attempts : List (String × String)) (jobs : List SwapJob),
      (hq : ∀ j ∈ jobs, j.status = JobStatus.queued ∧ j.nextRunAt ≤ now) →
      (hnd : (jobs.map (fun j => j.id)).Nodup) →
      (hcov : ∀ j ∈ jobs, ∃ w, (w, j.id) ∈ attempts) →
      (runClaims now attempts jobs).1.length = jobs.length ∧
      ∀ t, (runClaims now attempts jobs).1.countP (fun a => a.2 == t) ≤ 1 := by
  intro now attempts jobs hq hnd hcov
  have hle : ∀ t, (runClaims now attempts jobs).1.countP (fun a => a.2 == t) ≤ 1 := by
    intro t
    have h := runClaims_countP_le now attempts jobs t
    by_cases hcl : claimable now jobs t
    · rwa [if_pos hcl] at h
    · rw [if_neg hcl] at h
      omega
  refine ⟨?_, hle⟩
  have hsum := log_length_eq_sum_counts (jobs.map (fun j => j.id))
    (runClaims now attempts jobs).1 hnd (runClaims_log_targets now attempts jobs)
  have hones : ∀ x ∈ (jobs.map (fun j => j.id)).map
      (fun t => (runClaims now attempts jobs).1.countP (fun a => a.2 == t)), x = 1 := by
    intro x hx
    obtain ⟨t, ht, rfl⟩ := List.mem_map.mp hx
    obtain ⟨j, hj, hid⟩ := List.mem_map.mp ht
    have hcl : claimable now jobs t := ⟨j, hj, hid, (hq j hj).1, (hq j hj).2⟩
    have hge := runClaims_countP_ge now attempts jobs t hcl (by
      obtain ⟨w, hw⟩ := hcov j hj
      exact ⟨w, hid ▸ hw⟩)
    have := hle t
    omega
  rw [hsum, sum_eq_length_of_ones _ hones]
  simp

/-- C9 witness: the at-most-one-claim theorem at a concrete two-worker,
two-job race in which every claim is contended. -/
theorem atomic_claim_sum_and_exclusivity_witness :
    (runClaims 5 attemptsEx [jobA, jobB]).1.length = [jobA, jobB].length ∧
    (runClaims 5 attemptsEx [jobA, jobB]).1.countP (fun a => a.2 == "job-a") ≤ 1 :=
  ⟨(atomic_claim_sum_and_exclusivity 5 attemptsEx [jobA, jobB] (by decide) (by decide)
      (by
        intro j hj
        rcases List.mem_cons.mp hj with h | h
        · exact ⟨"w1", by rw [h]; decide⟩
        · rcases List.mem_cons.mp h with h2 | h2
          · exact ⟨"w2", by rw [h2]; decide⟩
          · exact absurd h2 (List.not_mem_nil _))).1,
    (atomic_claim_sum_and_exclusivity 5 attemptsEx [jobA, jobB] (by decide) (by decide)
      (by
        intro j hj
        rcases List.mem_cons.mp hj with h | h
        · exact ⟨"w1", by rw [h]; decide⟩
        · rcases List.mem_cons.mp h with h2 | h2
          · exact ⟨"w2", by rw [h2]; decide⟩
          · exact absurd h2 (List.not_mem_nil _))).2 "job-a"⟩

/-- C7 amended witness: a recorded run whose unmapped token id yields an
UNKNOWN-asset payment. -/
theorem unmapped_token_records_unknown_payment_witness :
    normalizeTokenId eventUnknownToken.tokenId = Asset.UNKNOWN ∧
    (handleInboundTransaction cfgNoSwap genEx dbEx eventUnknownToken "raw-u").2.payments.map
        (fun p => p.asset) = dbEx.payments.map (fun p => p.asset) ++ [Asset.UNKNOWN] :=
  unmapped_token_records_unknown_payment cfgNoSwap genEx dbEx eventUnknownToken "raw-u"
    (Or.inr rfl) ⟨EnqueueOutcome.skippedUnsupported, rfl⟩

end PaytagVerif
